import Mathlib

/-!
# Bulk mailer: producer, worker pool and dead letter queue

A shallow embedding of the three Go source files `main.go`, `consumer.go`
and `producer.go`.

* Channels are modelled by the ordered list of operations performed on them.
* The external calls (`executeTemplate`, `smtp.SendMail`, `time.Now`) are
  fields of an environment `Env`; a Go `error` is modelled by its text.
* Time is a natural number of milliseconds.
* A Go runtime panic (slice bounds, index out of range) is an explicit
  outcome, distinct from returning an `error`.
-/

namespace Mailer

/-! ## Data model (`main.go`) -/

/-- An email recipient: `type Recipient struct { Name, Email string }`. -/
structure Recipient where
  Name : String
  Email : String
  deriving DecidableEq, Repr

/-- An email that failed to send: `type FailedEmail struct`. -/
structure FailedEmail where
  Recipient : Recipient
  Error : String
  Timestamp : String
  deriving DecidableEq, Repr

/-! ## Producer (`producer.go`) -/

/-- Operations performed on the recipient channel `ch`. -/
inductive ChanEvent where
  | send (r : Recipient)
  | close
  deriving DecidableEq, Repr

/-- How a Go function ends: it returns its `error` result (`none` is `nil`),
or the goroutine panics with a runtime error. -/
inductive Outcome where
  | returned (err : Option String)
  | panicked (msg : String)
  deriving DecidableEq, Repr

/-- The loop `for _, record := range rows { ch <- Recipient{record[0], record[1]} }`.
Returns the sends performed and, when an index expression is out of range,
the panic message that stops the loop. `record[0]` is evaluated before
`record[1]`. -/
def sendRecords : List (List String) → List ChanEvent × Option String
  | [] => ([], none)
  | record :: rest =>
    match record[0]? with
    | none => ([], some "runtime error: index out of range [0] with length 0")
    | some name =>
      match record[1]? with
      | none => ([], some "runtime error: index out of range [1] with length 1")
      | some email =>
        let tl := sendRecords rest
        (ChanEvent.send ⟨name, email⟩ :: tl.1, tl.2)

/-- The function `loadRecipient(filePath, ch)`. `openResult` is the error
returned by `os.Open` (`none` when the file opened) and `readAll` is the result
of `csv.Reader.ReadAll`. The result holds the operations performed on `ch`, in
order, and how the function ended. The deferred `close(ch)` runs when the
function ends, whether by `return` or by a panic. -/
def loadRecipient (openResult : Option String)
    (readAll : Except String (List (List String))) : List ChanEvent × Outcome :=
  let body : List ChanEvent × Outcome :=
    match openResult with
    | some err => ([], Outcome.returned (some err))
    | none =>
      match readAll with
      | Except.error err => ([], Outcome.returned (some err))
      | Except.ok records =>
        -- `records[1:]` panics unless `1 <= len(records)`
        if 1 ≤ records.length then
          match sendRecords (records.drop 1) with
          | (evs, none) => (evs, Outcome.returned none)
          | (evs, some msg) => (evs, Outcome.panicked msg)
        else
          ([], Outcome.panicked "runtime error: slice bounds out of range [1:0]")
  (body.1 ++ [ChanEvent.close], body.2)

/-- The recipients sent on the channel, in order. -/
def sentRecipients (evs : List ChanEvent) : List Recipient :=
  evs.filterMap fun e =>
    match e with
    | ChanEvent.send r => some r
    | ChanEvent.close => none

/-- The recipient a data row stands for: `Recipient{Name: row[0], Email: row[1]}`. -/
def rowRecipient (row : List String) : Recipient :=
  ⟨row.getD 0 "", row.getD 1 ""⟩

/-! ## Worker (`consumer.go`) -/

/-- The external calls a worker makes. -/
structure Env where
  /-- `executeTemplate(r)`: the rendered message, or the error text. -/
  executeTemplate : Recipient → Except String String
  /-- `smtp.SendMail(addr, nil, from, to, msg)`: `none` is `nil`. -/
  sendMail : String → String → List String → String → Option String
  /-- `time.Now().Format(time.RFC3339)` at a given clock value. -/
  formatNow : Nat → String
  /-- Milliseconds spent waiting for and rendering a recipient. -/
  renderMs : Recipient → Nat
  /-- Milliseconds spent inside `smtp.SendMail` for a recipient. -/
  sendMs : Recipient → Nat
  /-- Milliseconds spent sending a failure on the DLQ channel. -/
  reportMs : Recipient → Nat

/-- Observable actions of a worker, in program order. -/
inductive Event where
  | stdout (text : String)
  | smtp (addr : String) (sender : String) (rcpts : List String) (msg : String)
  | dlq (failed : FailedEmail)
  | sleep (ms : Nat)
  | wgDone
  deriving DecidableEq, Repr

/-- State of a worker: the clock in milliseconds and its actions so far. -/
structure WState where
  clock : Nat
  trace : List Event
  deriving DecidableEq, Repr

/-- Let `ms` milliseconds pass. -/
def WState.tick (st : WState) (ms : Nat) : WState :=
  { st with clock := st.clock + ms }

/-- Record an action. -/
def WState.emit (st : WState) (e : Event) : WState :=
  { st with trace := st.trace ++ [e] }

/-- The address `smtpHost+":"+smtpPort`. -/
def smtpAddr : String := "localhost" ++ ":" ++ "1025"

/-- The fixed sender address. -/
def smtpFrom : String := "khanshariq92213@gmail.com"

/-- One iteration of the loop `for recipient := range ch` of `emailWorker`. -/
def emailWorkerBody (env : Env) (id : Int) (st : WState) (recipient : Recipient) : WState :=
  let st := st.tick (env.renderMs recipient)
  match env.executeTemplate recipient with
  | Except.error err =>
    let st := st.emit (Event.stdout
      ("Worker " ++ toString id ++ ": Error parsing template for " ++ recipient.Email ++ "\n"))
    let st := st.emit (Event.dlq
      { Recipient := recipient
        Error := "Template parsing error: " ++ err
        Timestamp := env.formatNow st.clock })
    st.tick (env.reportMs recipient)
  | Except.ok msg =>
    let st := st.emit (Event.stdout
      ("Worker " ++ toString id ++ ": Sending email to " ++ recipient.Email ++ " \n"))
    let st := st.emit (Event.smtp smtpAddr smtpFrom [recipient.Email] msg)
    let st := st.tick (env.sendMs recipient)
    match env.sendMail smtpAddr smtpFrom [recipient.Email] msg with
    | some err =>
      let st := st.emit (Event.stdout
        ("Worker " ++ toString id ++ ": Failed to send email to " ++ recipient.Email
          ++ ": " ++ err ++ "\n"))
      let st := st.emit (Event.dlq
        { Recipient := recipient
          Error := "SMTP error: " ++ err
          Timestamp := env.formatNow st.clock })
      st.tick (env.reportMs recipient)
    | none =>
      let st := (st.emit (Event.sleep 50)).tick 50
      st.emit (Event.stdout
        ("Worker " ++ toString id ++ ": Sent email to " ++ recipient.Email ++ " \n"))

/-- The function `emailWorker(id, ch, dlqCh, wg)` run on the sequence of
recipients it receives from `ch` before `ch` is closed; the deferred
`wg.Done()` is its last action. -/
def emailWorker (env : Env) (id : Int) (recipients : List Recipient) (st : WState) : WState :=
  (recipients.foldl (emailWorkerBody env id) st).emit Event.wgDone

/-- The values sent on the DLQ channel, in order. -/
def dlqSent (trace : List Event) : List FailedEmail :=
  trace.filterMap fun e =>
    match e with
    | Event.dlq f => some f
    | _ => none

/-- The durations of the `time.Sleep` calls, in order. -/
def sleeps (trace : List Event) : List Nat :=
  trace.filterMap fun e =>
    match e with
    | Event.sleep ms => some ms
    | _ => none

/-- The recipient lists of the `smtp.SendMail` calls, in order. -/
def smtpCalls (trace : List Event) : List (List String) :=
  trace.filterMap fun e =>
    match e with
    | Event.smtp _ _ rcpts _ => some rcpts
    | _ => none

/-- Rendering fails for `r`. -/
def renderFails (env : Env) (r : Recipient) : Bool :=
  match env.executeTemplate r with
  | Except.error _ => true
  | Except.ok _ => false

/-- Rendering succeeds for `r` and the delivery of the rendered message fails. -/
def deliveryFails (env : Env) (r : Recipient) : Bool :=
  match env.executeTemplate r with
  | Except.error _ => false
  | Except.ok msg => (env.sendMail smtpAddr smtpFrom [r.Email] msg).isSome

/-- The render or the delivery step fails for `r`. -/
def failed (env : Env) (r : Recipient) : Bool :=
  renderFails env r || deliveryFails env r

/-- The time one iteration of the worker loop takes for `r`: rendering, then
either the report of the render failure, or the delivery followed by the report
of its failure or by the 50 ms throttle. -/
def iterationMs (env : Env) (r : Recipient) : Nat :=
  match env.executeTemplate r with
  | Except.error _ => env.renderMs r + env.reportMs r
  | Except.ok msg =>
    match env.sendMail smtpAddr smtpFrom [r.Email] msg with
    | some _ => env.renderMs r + env.sendMs r + env.reportMs r
    | none => env.renderMs r + env.sendMs r + 50

/-- The time the iterations for the recipients `rs` take together. -/
def elapsedMs (env : Env) (rs : List Recipient) : Nat :=
  (rs.map (iterationMs env)).sum

/-! ## Summary (`main.go`) -/

/-- The block of text the summary shows for one entry, under the number `n`:
its email and name, its error text, its timestamp, and an empty line. -/
def summaryBlock (n : Nat) (failed : FailedEmail) : String :=
  (toString n ++ ". Email: " ++ failed.Recipient.Email
      ++ ", Name: " ++ failed.Recipient.Name ++ "\n")
    ++ ("   Error: " ++ failed.Error ++ "\n")
    ++ ("   Time: " ++ failed.Timestamp ++ "\n")
    ++ "\n"

/-- The loop `for i, failed := range dlq` of `printDLQSummary`, from index `i`. -/
def summaryLoop (i : Nat) : List FailedEmail → String
  | [] => ""
  | failed :: rest =>
    (toString (i + 1) ++ ". Email: " ++ failed.Recipient.Email
        ++ ", Name: " ++ failed.Recipient.Name ++ "\n")
      ++ ("   Error: " ++ failed.Error ++ "\n")
      ++ ("   Time: " ++ failed.Timestamp ++ "\n")
      ++ "\n"
      ++ summaryLoop (i + 1) rest

/-- The text `printDLQSummary` writes to standard output when the dead letter
queue holds `dlq`. -/
def printDLQSummary (dlq : List FailedEmail) : String :=
  if dlq.length = 0 then
    "\n✓ All emails sent successfully!" ++ "\n"
  else
    ("\n⚠ Failed to send " ++ toString dlq.length ++ " email(s):\n")
      ++ ("----------------------------------------" ++ "\n")
      ++ summaryLoop 0 dlq

/-! ## The run coordinator (`main`) and its goroutines

The whole program as a transition system. A scheduler picks, at each step,
which goroutine moves; a step that is blocked (a receive on an empty open
channel, a send on a full channel, `wg.Wait()` with a non-zero counter) is
not enabled. The two mutex-protected regions (the collector's append and the
body of `printDLQSummary`) are single steps. -/

/-- The constant `workerCount := 5`. -/
def workerCount : Nat := 5

/-- The capacity of `dlqChannel`: `make(chan FailedEmail, 100)`. -/
def dlqCapacity : Nat := 100

/-- Where `main` stands. -/
inductive MainPc where
  /-- At the test `i <= workerCount` of the spawning loop, with loop variable `i`. -/
  | spawning (i : Nat)
  /-- At `wg.Wait()`. -/
  | waiting
  /-- At `close(dlqChannel)`. -/
  | closing
  /-- At the call `printDLQSummary()`. -/
  | reporting
  /-- After `printDLQSummary()` returned, before the process exits. -/
  | returning
  /-- The process has exited. -/
  | exited
  deriving DecidableEq, Repr

/-- Where a worker goroutine stands; a running worker carries its clock. -/
inductive WorkerPc where
  /-- At `range ch`, waiting for a recipient. -/
  | receiving (clock : Nat)
  /-- At `dlqCh <- FailedEmail{...}`, about to send `failed`. -/
  | reporting (clock : Nat) (failed : FailedEmail)
  /-- The loop ended and the deferred `wg.Done()` ran. -/
  | exited
  deriving DecidableEq, Repr

/-- Where the DLQ collector goroutine stands. -/
inductive CollectorPc where
  /-- At `range dlqChannel`. -/
  | receiving
  /-- Holding a received value, before `dlq = append(dlq, failed)`. -/
  | appending (failed : FailedEmail)
  /-- The channel was closed and drained; the loop ended. -/
  | exited
  deriving DecidableEq, Repr

/-- State of the program. -/
structure Sys where
  mainPc : MainPc
  /-- Counter of the `sync.WaitGroup`. -/
  wg : Nat
  /-- The spawned workers; the worker at position `k` has id `k + 1`. -/
  workers : List WorkerPc
  /-- Operations the `loadRecipient` goroutine has still to perform on `ch`. -/
  feed : List ChanEvent
  /-- `recipientChannel` has been closed. -/
  feedClosed : Bool
  /-- Buffer of `dlqChannel`, oldest first. -/
  dlqChannel : List FailedEmail
  /-- `dlqChannel` has been closed. -/
  dlqClosed : Bool
  collector : CollectorPc
  /-- The global `dlq`. -/
  dlq : List FailedEmail
  /-- The value of `dlq` that `printDLQSummary` read, once it has run. -/
  reported : Option (List FailedEmail)
  /-- Every value a worker has sent on `dlqChannel`, in order. -/
  sent : List FailedEmail
  /-- A worker executed a send on `dlqChannel` after it was closed. -/
  sentOnClosed : Bool
  deriving DecidableEq, Repr

/-- The state when `main` has created the channels and launched the feed and
the collector, and is about to enter the spawning loop with `i := 1`. -/
def Sys.init (feed : List ChanEvent) : Sys :=
  { mainPc := MainPc.spawning 1
    wg := 0
    workers := []
    feed := feed
    feedClosed := false
    dlqChannel := []
    dlqClosed := false
    collector := CollectorPc.receiving
    dlq := []
    reported := none
    sent := []
    sentOnClosed := false }

/-- A worker that has not exited. -/
def WorkerPc.running : WorkerPc → Bool
  | WorkerPc.exited => false
  | _ => true

/-- The goroutine that moves. -/
inductive Action where
  | main
  | feed
  | worker (k : Nat)
  | collector
  deriving DecidableEq, Repr

/-- One step of `main`. -/
def stepMain (s : Sys) : Option Sys :=
  match s.mainPc with
  | MainPc.spawning i =>
    if i ≤ workerCount then
      -- `wg.Add(1); go emailWorker(i, ...)`, then `i++`
      some { s with
        wg := s.wg + 1
        workers := s.workers ++ [WorkerPc.receiving 0]
        mainPc := MainPc.spawning (i + 1) }
    else
      some { s with mainPc := MainPc.waiting }
  | MainPc.waiting =>
    -- `wg.Wait()` returns when the counter is zero
    if s.wg = 0 then some { s with mainPc := MainPc.closing } else none
  | MainPc.closing =>
    some { s with dlqClosed := true, mainPc := MainPc.reporting }
  | MainPc.reporting =>
    some { s with reported := some s.dlq, mainPc := MainPc.returning }
  | MainPc.returning =>
    some { s with mainPc := MainPc.exited }
  | MainPc.exited => none

/-- One step of the `loadRecipient` goroutine that involves no worker: the
deferred `close(ch)`. A send is a rendezvous and is a step of the receiving
worker. -/
def stepFeed (s : Sys) : Option Sys :=
  match s.feed with
  | ChanEvent.close :: rest =>
    if s.feedClosed then none else some { s with feed := rest, feedClosed := true }
  | _ => none

/-- One step of the worker at position `k` (id `k + 1`). -/
def stepWorker (env : Env) (k : Nat) (s : Sys) : Option Sys :=
  match s.workers[k]? with
  | none => none
  | some WorkerPc.exited => none
  | some (WorkerPc.receiving clock) =>
    if s.feedClosed then
      -- the loop ends; deferred `wg.Done()`
      some { s with workers := s.workers.set k WorkerPc.exited, wg := s.wg - 1 }
    else
      match s.feed with
      | ChanEvent.send r :: rest =>
        let st := emailWorkerBody env (Int.ofNat (k + 1)) ⟨clock, []⟩ r
        let pc :=
          match dlqSent st.trace with
          | [] => WorkerPc.receiving st.clock
          | failed :: _ => WorkerPc.reporting st.clock failed
        some { s with workers := s.workers.set k pc, feed := rest }
      | _ => none
  | some (WorkerPc.reporting clock failed) =>
    if s.dlqClosed then
      -- send on a closed channel: the goroutine panics, its deferred `wg.Done()` runs
      some { s with
        workers := s.workers.set k WorkerPc.exited
        wg := s.wg - 1
        sentOnClosed := true }
    else if s.dlqChannel.length < dlqCapacity then
      some { s with
        workers := s.workers.set k (WorkerPc.receiving clock)
        dlqChannel := s.dlqChannel ++ [failed]
        sent := s.sent ++ [failed] }
    else none

/-- One step of the DLQ collector goroutine. -/
def stepCollector (s : Sys) : Option Sys :=
  match s.collector with
  | CollectorPc.receiving =>
    match s.dlqChannel with
    | failed :: rest =>
      some { s with dlqChannel := rest, collector := CollectorPc.appending failed }
    | [] =>
      if s.dlqClosed then some { s with collector := CollectorPc.exited } else none
  | CollectorPc.appending failed =>
    -- `dlqMutex.Lock(); dlq = append(dlq, failed); dlqMutex.Unlock()`
    some { s with dlq := s.dlq ++ [failed], collector := CollectorPc.receiving }
  | CollectorPc.exited => none

/-- One step of the program; nothing moves once the process has exited. -/
def step (env : Env) (a : Action) (s : Sys) : Option Sys :=
  if s.mainPc = MainPc.exited then none
  else
    match a with
    | Action.main => stepMain s
    | Action.feed => stepFeed s
    | Action.worker k => stepWorker env k s
    | Action.collector => stepCollector s

/-- Run a schedule; `none` when it asks a blocked goroutine to move. -/
def run (env : Env) : List Action → Sys → Option Sys
  | [], s => some s
  | a :: rest, s =>
    match step env a s with
    | none => none
    | some s1 => run env rest s1

/-- The number of workers, out of `workerCount`, that have not yet exited
their loop (a worker not yet spawned has not exited). -/
def unfinished (s : Sys) : Nat :=
  workerCount - s.workers.countP fun w => !w.running

/-- What holds of `main` at each of its program points: how many workers were
spawned, whether the wait group counter is known to be zero, and whether the
DLQ channel is closed. -/
def phaseOk (s : Sys) : Prop :=
  match s.mainPc with
  | MainPc.spawning i =>
    s.workers.length + 1 = i ∧ i ≤ workerCount + 1 ∧ s.dlqClosed = false
  | MainPc.waiting => s.workers.length = workerCount ∧ s.dlqClosed = false
  | MainPc.closing => s.workers.length = workerCount ∧ s.wg = 0 ∧ s.dlqClosed = false
  | MainPc.reporting => s.workers.length = workerCount ∧ s.wg = 0 ∧ s.dlqClosed = true
  | MainPc.returning => s.workers.length = workerCount ∧ s.wg = 0 ∧ s.dlqClosed = true
  | MainPc.exited => s.workers.length = workerCount ∧ s.wg = 0 ∧ s.dlqClosed = true

/-- The invariant of the run coordinator: the wait group counter is the
number of spawned workers that have not exited, no worker has sent on a closed
DLQ channel, and `main` stands where `phaseOk` says. -/
def Inv (s : Sys) : Prop :=
  s.wg = s.workers.countP (fun w => w.running) ∧ s.sentOnClosed = false ∧ phaseOk s

/-- The phase predicate can be evaluated on a concrete state. -/
instance phaseOkDecidable (s : Sys) : Decidable (phaseOk s) := by
  unfold phaseOk
  split <;> infer_instance

/-- The invariant can be evaluated on a concrete state. -/
instance invDecidable (s : Sys) : Decidable (Inv s) := by
  unfold Inv
  infer_instance

/-! ## A concrete environment -/

/-- An environment in which rendering fails for a recipient with an empty
name and delivery fails for `bob@x.com`; rendering takes 1 ms and delivery
2 ms. -/
def demoEnv : Env where
  executeTemplate r := if r.Name = "" then Except.error "empty name" else Except.ok ("Hello " ++ r.Name)
  sendMail _ _ rcpts _ := if rcpts = ["bob@x.com"] then some "connection refused" else none
  formatNow t := "T+" ++ toString t ++ "ms"
  renderMs _ := 1
  sendMs _ := 2
  reportMs _ := 0

/-- The operations of the feed on a source with a header and the single data
row `Bob,bob@x.com`. -/
def bobFeed : List ChanEvent :=
  (loadRecipient none (Except.ok [["name", "email"], ["Bob", "bob@x.com"]])).1

/-- The failure worker 1 reports for Bob under `demoEnv`. -/
def bobFailure : FailedEmail :=
  ⟨⟨"Bob", "bob@x.com"⟩, "SMTP error: connection refused", "T+3ms"⟩

/-- A schedule in which `main` spawns the five workers, worker 1 receives Bob,
fails to deliver and puts its report in the DLQ channel, the feed closes the
recipient channel, the five workers exit, and `main` passes `wg.Wait()`,
closes the DLQ channel and prints the summary, all before the collector
moves. -/
def racySchedule : List Action :=
  [Action.main, Action.main, Action.main, Action.main, Action.main, Action.main,
   Action.worker 0, Action.worker 0, Action.feed,
   Action.worker 0, Action.worker 1, Action.worker 2, Action.worker 3, Action.worker 4,
   Action.main, Action.main, Action.main]

/-- The state the program is in after `racySchedule` on `bobFeed`: `main` has
printed the summary of an empty `dlq` while Bob's failure is still in the DLQ
channel. -/
def racyFinal : Sys :=
  { mainPc := MainPc.returning
    wg := 0
    workers := [WorkerPc.exited, WorkerPc.exited, WorkerPc.exited, WorkerPc.exited,
      WorkerPc.exited]
    feed := []
    feedClosed := true
    dlqChannel := [bobFailure]
    dlqClosed := true
    collector := CollectorPc.receiving
    dlq := []
    reported := some []
    sent := [bobFailure]
    sentOnClosed := false }

/-! ## Producer: lemmas -/

/-- On rows that all have two columns the loop sends one recipient per row
and does not panic. -/
theorem sendRecords_of_two_columns (rows : List (List String))
    (hcols : ∀ row ∈ rows, 2 ≤ row.length) :
    sendRecords rows = (rows.map fun row => ChanEvent.send (rowRecipient row), none) := by
  induction rows with
  | nil => rfl
  | cons row rest ih =>
    have hrow : 2 ≤ row.length := hcols row (List.mem_cons_self _ _)
    have hrest := ih fun r hr => hcols r (List.mem_cons_of_mem _ hr)
    match row, hrow with
    | name :: email :: more, _ =>
      simp [sendRecords, hrest, rowRecipient]

/-- The loop performs only sends: its operations are the sends of the
recipients it sent. -/
theorem sendRecords_only_sends (rows : List (List String)) :
    (sendRecords rows).1 = (sentRecipients (sendRecords rows).1).map ChanEvent.send := by
  induction rows with
  | nil => rfl
  | cons row rest ih =>
    unfold sendRecords
    split
    · rfl
    · split
      · rfl
      · simp only [sentRecipients, List.filterMap_cons, List.map_cons]
        rw [List.cons_inj_right]
        exact ih

/-- Sent recipients of a list of sends followed by the close. -/
theorem sentRecipients_append_close (evs : List ChanEvent) :
    sentRecipients (evs ++ [ChanEvent.close]) = sentRecipients evs := by
  simp [sentRecipients]

/-- The recipients sent by a list of sends. -/
theorem sentRecipients_map_send (rs : List Recipient) :
    sentRecipients (rs.map ChanEvent.send) = rs := by
  induction rs with
  | nil => rfl
  | cons r rest ih =>
    simp only [sentRecipients, List.map_cons, List.filterMap_cons] at ih ⊢
    rw [ih]

/-- A list of sends holds no close. -/
theorem count_close_map_send (rs : List Recipient) :
    (rs.map ChanEvent.send).count ChanEvent.close = 0 := by
  induction rs with
  | nil => rfl
  | cons r rest ih => simp [List.count_cons, ih]

/-! ## Producer: claims -/

/-- C4. The claim that `loadRecipient` always ends by returning `nil` or an
error fails on the code: on a table with no rows the slice `records[1:]`
panics, and on a table whose rows have a single column the index `record[1]`
panics. In both runs the function ends by a runtime panic, not by a return. -/
theorem loadRecipient_panics_on_short_tables :
    loadRecipient none (Except.ok []) =
        ([ChanEvent.close],
          Outcome.panicked "runtime error: slice bounds out of range [1:0]")
      ∧ loadRecipient none (Except.ok [["name"], ["Alice"]]) =
        ([ChanEvent.close],
          Outcome.panicked "runtime error: index out of range [1] with length 1")
      ∧ (∀ err, loadRecipient none (Except.ok []) ≠ ([ChanEvent.close], Outcome.returned err))
      ∧ (∀ evs err,
          loadRecipient none (Except.ok [["name"], ["Alice"]]) ≠ (evs, Outcome.returned err)) := by
  refine ⟨rfl, rfl, ?_, ?_⟩
  · intro err h
    have h2 := congrArg Prod.snd h
    simp [loadRecipient] at h2
  · intro evs err h
    have h2 := congrArg Prod.snd h
    simp [loadRecipient, sendRecords] at h2

/-- C5. On a table with a header row in which every row has at least two
columns, `loadRecipient` sends exactly the rows after the first, each as
`Recipient{Name: row[0], Email: row[1]}`, in order, then closes the channel and
returns `nil`; one recipient is sent per data row. -/
theorem loadRecipient_sends_data_rows (records : List (List String))
    (hheader : 1 ≤ records.length) (hcols : ∀ row ∈ records, 2 ≤ row.length) :
    loadRecipient none (Except.ok records) =
        ((records.tail.map fun row => ChanEvent.send (rowRecipient row)) ++ [ChanEvent.close],
          Outcome.returned none)
      ∧ sentRecipients (loadRecipient none (Except.ok records)).1 = records.tail.map rowRecipient
      ∧ (sentRecipients (loadRecipient none (Except.ok records)).1).length
          = records.length - 1 := by
  have htail : ∀ row ∈ records.drop 1, 2 ≤ row.length :=
    fun row hrow => hcols row (List.mem_of_mem_drop hrow)
  have hloop := sendRecords_of_two_columns (records.drop 1) htail
  have hrun : loadRecipient none (Except.ok records) =
      ((records.tail.map fun row => ChanEvent.send (rowRecipient row)) ++ [ChanEvent.close],
        Outcome.returned none) := by
    rw [List.drop_one] at hloop
    simp only [loadRecipient, hheader, if_true, hloop, List.drop_one]
  have hsent : sentRecipients (loadRecipient none (Except.ok records)).1
      = records.tail.map rowRecipient := by
    rw [hrun, sentRecipients_append_close]
    have h := sentRecipients_map_send (records.tail.map rowRecipient)
    rw [List.map_map] at h
    exact h
  refine ⟨hrun, hsent, ?_⟩
  rw [hsent, List.length_map, List.length_tail]

/-- Witness for C5: a header and two data rows, each row with a third column. -/
theorem loadRecipient_sends_data_rows_witness :
    loadRecipient none
        (Except.ok [["name", "email", "note"], ["Alice", "alice@x.com", "a"], ["Bob", "bob@x.com", "extra"]]) =
      ([ChanEvent.send ⟨"Alice", "alice@x.com"⟩, ChanEvent.send ⟨"Bob", "bob@x.com"⟩,
          ChanEvent.close],
        Outcome.returned none) :=
  (loadRecipient_sends_data_rows
    [["name", "email", "note"], ["Alice", "alice@x.com", "a"], ["Bob", "bob@x.com", "extra"]]
    (by decide) (by decide)).1

/-- C6. However `loadRecipient` ends, the operations on the channel are the
sends followed by exactly one close, the close being the last operation; and
when `os.Open` or `ReadAll` fails, that error is returned and nothing was
sent. -/
theorem loadRecipient_closes_once (openResult : Option String)
    (readAll : Except String (List (List String))) :
    (loadRecipient openResult readAll).1 =
        (sentRecipients (loadRecipient openResult readAll).1).map ChanEvent.send
          ++ [ChanEvent.close]
      ∧ (loadRecipient openResult readAll).1.count ChanEvent.close = 1
      ∧ (∀ err, openResult = some err →
          loadRecipient openResult readAll = ([ChanEvent.close], Outcome.returned (some err)))
      ∧ (∀ err, openResult = none → readAll = Except.error err →
          loadRecipient openResult readAll = ([ChanEvent.close], Outcome.returned (some err))) := by
  have hshape : (loadRecipient openResult readAll).1 =
      (sentRecipients (loadRecipient openResult readAll).1).map ChanEvent.send
        ++ [ChanEvent.close] := by
    unfold loadRecipient
    simp only [sentRecipients_append_close]
    rw [List.append_left_inj]
    cases openResult with
    | some err => rfl
    | none =>
      cases readAll with
      | error err => rfl
      | ok records =>
        by_cases hlen : 1 ≤ records.length
        · have hl := sendRecords_only_sends (records.drop 1)
          simp only [hlen, if_true]
          split <;> rename_i heq <;> rw [heq] at hl <;> exact hl
        · simp only [hlen, if_false]
          rfl
  refine ⟨hshape, ?_, ?_, ?_⟩
  · rw [hshape, List.count_append, count_close_map_send]
    rfl
  · intro err h
    subst h
    rfl
  · intro err h1 h2
    subst h1 h2
    rfl

/-- Witness for C6: the source file is missing. -/
theorem loadRecipient_closes_once_witness :
    loadRecipient (some "open ./emails.csv: no such file or directory") (Except.ok []) =
      ([ChanEvent.close],
        Outcome.returned (some "open ./emails.csv: no such file or directory")) :=
  (loadRecipient_closes_once (some "open ./emails.csv: no such file or directory")
    (Except.ok [])).2.2.1 _ rfl

/-! ## Worker: one iteration -/

/-- The iteration when `executeTemplate` fails. -/
theorem emailWorkerBody_render_error (env : Env) (id : Int) (st : WState) (r : Recipient)
    (err : String) (hr : env.executeTemplate r = Except.error err) :
    emailWorkerBody env id st r =
      { clock := st.clock + env.renderMs r + env.reportMs r
        trace := st.trace ++
          [Event.stdout
            ("Worker " ++ toString id ++ ": Error parsing template for " ++ r.Email ++ "\n"),
           Event.dlq ⟨r, "Template parsing error: " ++ err,
            env.formatNow (st.clock + env.renderMs r)⟩] } := by
  simp [emailWorkerBody, hr, WState.tick, WState.emit]

/-- The iteration when rendering succeeds and `smtp.SendMail` fails. -/
theorem emailWorkerBody_send_error (env : Env) (id : Int) (st : WState) (r : Recipient)
    (msg err : String) (hr : env.executeTemplate r = Except.ok msg)
    (hs : env.sendMail smtpAddr smtpFrom [r.Email] msg = some err) :
    emailWorkerBody env id st r =
      { clock := st.clock + env.renderMs r + env.sendMs r + env.reportMs r
        trace := st.trace ++
          [Event.stdout ("Worker " ++ toString id ++ ": Sending email to " ++ r.Email ++ " \n"),
           Event.smtp smtpAddr smtpFrom [r.Email] msg,
           Event.stdout
            ("Worker " ++ toString id ++ ": Failed to send email to " ++ r.Email
              ++ ": " ++ err ++ "\n"),
           Event.dlq ⟨r, "SMTP error: " ++ err,
            env.formatNow (st.clock + env.renderMs r + env.sendMs r)⟩] } := by
  simp [emailWorkerBody, hr, hs, WState.tick, WState.emit]

/-- The iteration when rendering and delivery both succeed. -/
theorem emailWorkerBody_success (env : Env) (id : Int) (st : WState) (r : Recipient)
    (msg : String) (hr : env.executeTemplate r = Except.ok msg)
    (hs : env.sendMail smtpAddr smtpFrom [r.Email] msg = none) :
    emailWorkerBody env id st r =
      { clock := st.clock + env.renderMs r + env.sendMs r + 50
        trace := st.trace ++
          [Event.stdout ("Worker " ++ toString id ++ ": Sending email to " ++ r.Email ++ " \n"),
           Event.smtp smtpAddr smtpFrom [r.Email] msg,
           Event.sleep 50,
           Event.stdout ("Worker " ++ toString id ++ ": Sent email to " ++ r.Email ++ " \n")] } := by
  simp [emailWorkerBody, hr, hs, WState.tick, WState.emit]

/-- What one iteration adds to the DLQ sends, the sleeps and the clock,
according to whether the recipient fails. -/
theorem emailWorkerBody_effect (env : Env) (id : Int) (st : WState) (r : Recipient) :
    (failed env r = true →
        (dlqSent (emailWorkerBody env id st r).trace).map (fun f => f.Recipient)
            = (dlqSent st.trace).map (fun f => f.Recipient) ++ [r]
          ∧ sleeps (emailWorkerBody env id st r).trace = sleeps st.trace
          ∧ st.clock ≤ (emailWorkerBody env id st r).clock)
      ∧ (failed env r = false →
        dlqSent (emailWorkerBody env id st r).trace = dlqSent st.trace
          ∧ sleeps (emailWorkerBody env id st r).trace = sleeps st.trace ++ [50]
          ∧ st.clock + 50 ≤ (emailWorkerBody env id st r).clock) := by
  cases hr : env.executeTemplate r with
  | error err =>
    have hf : failed env r = true := by simp [failed, renderFails, hr]
    rw [emailWorkerBody_render_error env id st r err hr]
    simp [hf, dlqSent, sleeps, List.filterMap_append]
    omega
  | ok msg =>
    cases hs : env.sendMail smtpAddr smtpFrom [r.Email] msg with
    | some err =>
      have hf : failed env r = true := by simp [failed, renderFails, deliveryFails, hr, hs]
      rw [emailWorkerBody_send_error env id st r msg err hr hs]
      simp [hf, dlqSent, sleeps, List.filterMap_append]
      omega
    | none =>
      have hf : failed env r = false := by simp [failed, renderFails, deliveryFails, hr, hs]
      rw [emailWorkerBody_success env id st r msg hr hs]
      simp [hf, dlqSent, sleeps, List.filterMap_append]
      omega

/-! ## Worker: the whole loop -/

/-- Effect of the loop on the DLQ sends, the sleeps and the clock, from any
starting state. -/
theorem foldl_emailWorkerBody_effect (env : Env) (id : Int) (rs : List Recipient) :
    ∀ st : WState,
      (dlqSent (rs.foldl (emailWorkerBody env id) st).trace).map (fun f => f.Recipient)
          = (dlqSent st.trace).map (fun f => f.Recipient) ++ rs.filter (failed env)
        ∧ sleeps (rs.foldl (emailWorkerBody env id) st).trace
          = sleeps st.trace ++ List.replicate (rs.countP fun r => !failed env r) 50
        ∧ st.clock + 50 * (rs.countP fun r => !failed env r)
          ≤ (rs.foldl (emailWorkerBody env id) st).clock := by
  induction rs with
  | nil => intro st; simp
  | cons r rest ih =>
    intro st
    obtain ⟨h1, h2, h3⟩ := ih (emailWorkerBody env id st r)
    have hb := emailWorkerBody_effect env id st r
    simp only [List.foldl_cons]
    cases hf : failed env r with
    | true =>
      obtain ⟨b1, b2, b3⟩ := hb.1 hf
      refine ⟨?_, ?_, ?_⟩
      · rw [h1, b1]; simp [List.filter_cons, hf]
      · rw [h2, b2]; simp [List.countP_cons, hf]
      · simp only [List.countP_cons, hf] at h3 ⊢
        simp only [Bool.not_true, Bool.false_eq_true, if_false, Nat.add_zero]
        omega
    | false =>
      obtain ⟨b1, b2, b3⟩ := hb.2 hf
      refine ⟨?_, ?_, ?_⟩
      · rw [h1, b1]; simp [List.filter_cons, hf]
      · rw [h2, b2]; simp [List.countP_cons, hf, List.replicate_succ]
      · simp only [List.countP_cons, hf] at h3 ⊢
        simp only [Bool.not_false, if_true]
        omega

/-- The final `wg.Done()` adds no DLQ send and no sleep and takes no time. -/
theorem emailWorker_eq (env : Env) (id : Int) (rs : List Recipient) (st : WState) :
    dlqSent (emailWorker env id rs st).trace
        = dlqSent (rs.foldl (emailWorkerBody env id) st).trace
      ∧ sleeps (emailWorker env id rs st).trace
        = sleeps (rs.foldl (emailWorkerBody env id) st).trace
      ∧ (emailWorker env id rs st).clock = (rs.foldl (emailWorkerBody env id) st).clock := by
  simp [emailWorker, WState.emit, dlqSent, sleeps, List.filterMap_append]

/-- Recipients of the DLQ sends of a whole worker run from an empty trace. -/
theorem emailWorker_dlq_recipients (env : Env) (id : Int) (rs : List Recipient) (t : Nat) :
    (dlqSent (emailWorker env id rs ⟨t, []⟩).trace).map (fun f => f.Recipient)
      = rs.filter (failed env) := by
  rw [(emailWorker_eq env id rs ⟨t, []⟩).1,
    (foldl_emailWorkerBody_effect env id rs ⟨t, []⟩).1]
  simp [dlqSent]

/-- When no recipient fails, every recipient counts as a success. -/
theorem countP_not_failed_of_all_succeed (env : Env) (rs : List Recipient)
    (hall : ∀ r ∈ rs, failed env r = false) :
    (rs.countP fun r => !failed env r) = rs.length := by
  induction rs with
  | nil => rfl
  | cons r rest ih =>
    have hr := hall r (List.mem_cons_self _ _)
    have hrest := ih fun x hx => hall x (List.mem_cons_of_mem _ hx)
    simp [List.countP_cons, hr, hrest]

/-- The clock after one iteration. -/
theorem emailWorkerBody_clock (env : Env) (id : Int) (st : WState) (r : Recipient) :
    (emailWorkerBody env id st r).clock = st.clock + iterationMs env r := by
  cases hr : env.executeTemplate r with
  | error err =>
    rw [emailWorkerBody_render_error env id st r err hr]
    simp only [iterationMs, hr]
    omega
  | ok msg =>
    cases hs : env.sendMail smtpAddr smtpFrom [r.Email] msg with
    | some err =>
      rw [emailWorkerBody_send_error env id st r msg err hr hs]
      simp only [iterationMs, hr, hs]
      omega
    | none =>
      rw [emailWorkerBody_success env id st r msg hr hs]
      simp only [iterationMs, hr, hs]
      omega

/-- The clock after the loop. -/
theorem foldl_emailWorkerBody_clock (env : Env) (id : Int) (rs : List Recipient) :
    ∀ st : WState,
      (rs.foldl (emailWorkerBody env id) st).clock = st.clock + elapsedMs env rs := by
  induction rs with
  | nil => intro st; simp [elapsedMs]
  | cons r rest ih =>
    intro st
    have h := ih (emailWorkerBody env id st r)
    rw [emailWorkerBody_clock] at h
    simp only [List.foldl_cons, h, elapsedMs, List.map_cons, List.sum_cons]
    unfold elapsedMs at h
    omega

/-- The element right after a list `a` in `a ++ x :: m` is `x`. -/
theorem getElem?_append_cons_length {α : Type} (a : List α) (x : α) (m : List α) :
    (a ++ ([x] ++ m))[a.length]? = some x := by
  induction a with
  | nil => simp
  | cons y rest ih => simpa using ih

/-- The DLQ sends of two stretches of actions. -/
theorem dlqSent_append (a b : List Event) : dlqSent (a ++ b) = dlqSent a ++ dlqSent b := by
  simp only [dlqSent, List.filterMap_append]

/-- One iteration only adds to the DLQ sends. -/
theorem emailWorkerBody_dlq_extends (env : Env) (id : Int) (st : WState) (r : Recipient) :
    ∃ more, dlqSent (emailWorkerBody env id st r).trace = dlqSent st.trace ++ more := by
  cases hr : env.executeTemplate r with
  | error err =>
    rw [emailWorkerBody_render_error env id st r err hr]
    exact ⟨_, dlqSent_append _ _⟩
  | ok msg =>
    cases hs : env.sendMail smtpAddr smtpFrom [r.Email] msg with
    | some err =>
      rw [emailWorkerBody_send_error env id st r msg err hr hs]
      exact ⟨_, dlqSent_append _ _⟩
    | none =>
      rw [emailWorkerBody_success env id st r msg hr hs]
      exact ⟨_, dlqSent_append _ _⟩

/-- The loop only adds to the DLQ sends. -/
theorem foldl_emailWorkerBody_dlq_extends (env : Env) (id : Int) (rs : List Recipient) :
    ∀ st : WState, ∃ more,
      dlqSent (rs.foldl (emailWorkerBody env id) st).trace = dlqSent st.trace ++ more := by
  induction rs with
  | nil => intro st; exact ⟨[], by simp⟩
  | cons r rest ih =>
    intro st
    obtain ⟨m1, h1⟩ := emailWorkerBody_dlq_extends env id st r
    obtain ⟨m2, h2⟩ := ih (emailWorkerBody env id st r)
    exact ⟨m1 ++ m2, by simp only [List.foldl_cons, h2, h1, List.append_assoc]⟩

/-- The `smtp.SendMail` calls one iteration adds: one, to the address of the
recipient, when rendering succeeds, and none when it fails. -/
theorem emailWorkerBody_smtpCalls (env : Env) (id : Int) (st : WState) (r : Recipient) :
    smtpCalls (emailWorkerBody env id st r).trace
      = smtpCalls st.trace ++ (if renderFails env r then [] else [[r.Email]]) := by
  cases hr : env.executeTemplate r with
  | error err =>
    rw [emailWorkerBody_render_error env id st r err hr]
    simp [smtpCalls, renderFails, hr, List.filterMap_append]
  | ok msg =>
    cases hs : env.sendMail smtpAddr smtpFrom [r.Email] msg with
    | some err =>
      rw [emailWorkerBody_send_error env id st r msg err hr hs]
      simp [smtpCalls, renderFails, hr, List.filterMap_append]
    | none =>
      rw [emailWorkerBody_success env id st r msg hr hs]
      simp [smtpCalls, renderFails, hr, List.filterMap_append]

/-- The `smtp.SendMail` calls of the loop: one per recipient that renders. -/
theorem foldl_emailWorkerBody_smtpCalls (env : Env) (id : Int) (rs : List Recipient) :
    ∀ st : WState,
      smtpCalls (rs.foldl (emailWorkerBody env id) st).trace
        = smtpCalls st.trace
          ++ (rs.filter fun x => !renderFails env x).map fun x => [x.Email] := by
  induction rs with
  | nil => intro st; simp
  | cons r rest ih =>
    intro st
    rw [List.foldl_cons, ih, emailWorkerBody_smtpCalls]
    cases hf : renderFails env r <;> simp [List.filter_cons, hf]

/-! ## Worker: claims -/

/-- C1. For every finite sequence of recipients a worker receives, the
recipients of the `FailedEmail` values it sends on the DLQ channel are, in
processing order, exactly the recipients whose render or delivery step failed:
one entry for each of them and none for a recipient whose two steps
succeeded. -/
theorem emailWorker_dlq_exactly_failures (env : Env) (id : Int) (rs : List Recipient)
    (t : Nat) :
    (dlqSent (emailWorker env id rs ⟨t, []⟩).trace).map (fun f => f.Recipient)
      = rs.filter (failed env) :=
  emailWorker_dlq_recipients env id rs t

/-- C7. For a recipient `r` that a worker processes after any recipients `pre`
and before any recipients `post`, from any state `st`. When `executeTemplate`
fails for `r`, the worker sends to the DLQ, right after its reports for `pre`,
a `FailedEmail` with recipient `r` and the error text
`"Template parsing error: "` followed by the underlying error, and its
`smtp.SendMail` calls are those for the recipients of `pre` and `post` that
render, none being made for `r`. When rendering succeeds and `smtp.SendMail`
fails, the worker sends at that place a `FailedEmail` with recipient `r` and
the error text `"SMTP error: "` followed by the underlying error. In both
cases the worker goes on: its DLQ sends are the reports for `pre`, the one
report for `r`, and then the reports for the failing recipients of `post`.
The two labels, which stand for the render and the delivery category, are
never confused. -/
theorem emailWorker_failure_report (env : Env) (id : Int) (st : WState)
    (pre post : List Recipient) (r : Recipient) :
    (∀ err, env.executeTemplate r = Except.error err →
        (dlqSent (emailWorker env id (pre ++ r :: post) st).trace)[
            (dlqSent st.trace).length + (pre.filter (failed env)).length]?
          = some ⟨r, "Template parsing error: " ++ err,
              env.formatNow (st.clock + elapsedMs env pre + env.renderMs r)⟩
        ∧ smtpCalls (emailWorker env id (pre ++ r :: post) st).trace
          = smtpCalls st.trace
            ++ ((pre ++ post).filter fun x => !renderFails env x).map fun x => [x.Email])
      ∧ (∀ msg err, env.executeTemplate r = Except.ok msg →
          env.sendMail smtpAddr smtpFrom [r.Email] msg = some err →
          (dlqSent (emailWorker env id (pre ++ r :: post) st).trace)[
              (dlqSent st.trace).length + (pre.filter (failed env)).length]?
            = some ⟨r, "SMTP error: " ++ err,
                env.formatNow (st.clock + elapsedMs env pre + env.renderMs r + env.sendMs r)⟩)
      ∧ (failed env r = true →
          (dlqSent (emailWorker env id (pre ++ r :: post) st).trace).map (fun f => f.Recipient)
            = (dlqSent st.trace).map (fun f => f.Recipient)
              ++ (pre.filter (failed env) ++ r :: post.filter (failed env)))
      ∧ (∀ e1 e2 : String, "Template parsing error: " ++ e1 ≠ "SMTP error: " ++ e2) := by
  have hmid := foldl_emailWorkerBody_clock env id pre st
  refine ⟨?_, ?_, ?_, ?_⟩
  · intro err hr
    have hfail : failed env r = true := by simp [failed, renderFails, hr]
    refine ⟨?_, ?_⟩
    · rw [(emailWorker_eq env id (pre ++ r :: post) st).1, List.foldl_append, List.foldl_cons]
      obtain ⟨more, hmore⟩ := foldl_emailWorkerBody_dlq_extends env id post
        (emailWorkerBody env id (pre.foldl (emailWorkerBody env id) st) r)
      have hentry : dlqSent
            (emailWorkerBody env id (pre.foldl (emailWorkerBody env id) st) r).trace
          = dlqSent (pre.foldl (emailWorkerBody env id) st).trace
            ++ [⟨r, "Template parsing error: " ++ err,
                env.formatNow (st.clock + elapsedMs env pre + env.renderMs r)⟩] := by
        rw [emailWorkerBody_render_error env id _ r err hr, hmid]
        simp [dlqSent, List.filterMap_append]
      have hlen := congrArg List.length (foldl_emailWorkerBody_effect env id pre st).1
      simp only [List.length_map, List.length_append] at hlen
      rw [hmore, hentry, ← hlen, List.append_assoc]
      exact getElem?_append_cons_length _ _ _
    · have hrf : renderFails env r = true := by simp [renderFails, hr]
      simp only [emailWorker, WState.emit, smtpCalls, List.filterMap_append]
      have h := foldl_emailWorkerBody_smtpCalls env id (pre ++ r :: post) st
      simp only [smtpCalls] at h
      rw [h]
      simp [List.filter_cons, hrf]
  · intro msg err hr hs
    rw [(emailWorker_eq env id (pre ++ r :: post) st).1, List.foldl_append, List.foldl_cons]
    obtain ⟨more, hmore⟩ := foldl_emailWorkerBody_dlq_extends env id post
      (emailWorkerBody env id (pre.foldl (emailWorkerBody env id) st) r)
    have hentry : dlqSent
          (emailWorkerBody env id (pre.foldl (emailWorkerBody env id) st) r).trace
        = dlqSent (pre.foldl (emailWorkerBody env id) st).trace
          ++ [⟨r, "SMTP error: " ++ err,
              env.formatNow (st.clock + elapsedMs env pre + env.renderMs r + env.sendMs r)⟩] := by
      rw [emailWorkerBody_send_error env id _ r msg err hr hs, hmid]
      simp [dlqSent, List.filterMap_append]
    have hlen := congrArg List.length (foldl_emailWorkerBody_effect env id pre st).1
    simp only [List.length_map, List.length_append] at hlen
    rw [hmore, hentry, ← hlen, List.append_assoc]
    exact getElem?_append_cons_length _ _ _
  · intro hfail
    rw [(emailWorker_eq env id (pre ++ r :: post) st).1,
      (foldl_emailWorkerBody_effect env id (pre ++ r :: post) st).1]
    simp [List.filter_cons, hfail]
  · intro e1 e2 h
    have h2 := congrArg (fun s : String => s.data.head?) h
    simp [String.data_append] at h2

/-- Witness for C7: a worker receives Alice, who succeeds, then a recipient
with an empty name, for whom rendering fails, then Bob, for whom delivery
fails. -/
theorem emailWorker_failure_report_witness :
    ((dlqSent (emailWorker demoEnv 1
          [⟨"Alice", "alice@x.com"⟩, ⟨"", "nobody@x.com"⟩, ⟨"Bob", "bob@x.com"⟩]
          ⟨0, []⟩).trace)[0]?
        = some ⟨⟨"", "nobody@x.com"⟩, "Template parsing error: empty name", "T+54ms"⟩
      ∧ smtpCalls (emailWorker demoEnv 1
          [⟨"Alice", "alice@x.com"⟩, ⟨"", "nobody@x.com"⟩, ⟨"Bob", "bob@x.com"⟩]
          ⟨0, []⟩).trace
        = [["alice@x.com"], ["bob@x.com"]])
      ∧ (dlqSent (emailWorker demoEnv 1
          [⟨"Alice", "alice@x.com"⟩, ⟨"", "nobody@x.com"⟩, ⟨"Bob", "bob@x.com"⟩]
          ⟨0, []⟩).trace)[1]?
        = some ⟨⟨"Bob", "bob@x.com"⟩, "SMTP error: connection refused", "T+57ms"⟩
      ∧ (dlqSent (emailWorker demoEnv 1
          [⟨"Alice", "alice@x.com"⟩, ⟨"", "nobody@x.com"⟩, ⟨"Bob", "bob@x.com"⟩]
          ⟨0, []⟩).trace).map (fun f => f.Recipient)
        = [⟨"", "nobody@x.com"⟩, ⟨"Bob", "bob@x.com"⟩] :=
  ⟨(emailWorker_failure_report demoEnv 1 ⟨0, []⟩ [⟨"Alice", "alice@x.com"⟩]
      [⟨"Bob", "bob@x.com"⟩] ⟨"", "nobody@x.com"⟩).1 "empty name" rfl,
   (emailWorker_failure_report demoEnv 1 ⟨0, []⟩
      [⟨"Alice", "alice@x.com"⟩, ⟨"", "nobody@x.com"⟩] [] ⟨"Bob", "bob@x.com"⟩).2.1
      "Hello Bob" "connection refused" rfl rfl,
   (emailWorker_failure_report demoEnv 1 ⟨0, []⟩ [⟨"Alice", "alice@x.com"⟩]
      [⟨"Bob", "bob@x.com"⟩] ⟨"", "nobody@x.com"⟩).2.2.1 (by decide)⟩

/-- C9. For every finite input sequence, the number of recipients for which
the worker reached the throttle branch plus the number of `FailedEmail` values
it sent on the DLQ channel equals the number of recipients received. -/
theorem emailWorker_success_plus_failure (env : Env) (id : Int) (rs : List Recipient)
    (t : Nat) :
    (sleeps (emailWorker env id rs ⟨t, []⟩).trace).length
        + (dlqSent (emailWorker env id rs ⟨t, []⟩).trace).length
      = rs.length := by
  have hd := emailWorker_dlq_recipients env id rs t
  have hlen := congrArg List.length hd
  rw [List.length_map] at hlen
  rw [hlen, (emailWorker_eq env id rs ⟨t, []⟩).2.1,
    (foldl_emailWorkerBody_effect env id rs ⟨t, []⟩).2.1]
  simp only [sleeps, List.filterMap_nil, List.nil_append, List.length_replicate]
  rw [← List.countP_eq_length_filter]
  have h := List.length_eq_countP_add_countP (failed env) rs
  have hc : List.countP (fun r => !failed env r) rs
      = List.countP (fun a => decide ¬failed env a = true) rs := by
    congr 1
    funext a
    cases failed env a <;> rfl
  omega

/-- C10. With the clock advancing by 50 ms on each `time.Sleep` and by a
non-negative amount on every other step: a worker that processes `k`
recipients which all render and deliver successfully ends at least
`(k-1) * 50` ms after it started; over any input the worker sleeps once, for
50 ms, per successful recipient; an iteration that fails does not sleep; and
an iteration that succeeds sleeps exactly once. -/
theorem emailWorker_throttle (env : Env) (id : Int) (rs : List Recipient) (st : WState) :
    ((∀ r ∈ rs, failed env r = false) →
        st.clock + (rs.length - 1) * 50 ≤ (emailWorker env id rs st).clock)
      ∧ sleeps (emailWorker env id rs st).trace
        = sleeps st.trace ++ List.replicate (rs.countP fun r => !failed env r) 50
      ∧ (∀ (r : Recipient) (s : WState), failed env r = true →
          sleeps (emailWorkerBody env id s r).trace = sleeps s.trace)
      ∧ (∀ (r : Recipient) (s : WState), failed env r = false →
          sleeps (emailWorkerBody env id s r).trace = sleeps s.trace ++ [50]
            ∧ s.clock + 50 ≤ (emailWorkerBody env id s r).clock) := by
  obtain ⟨e1, e2, e3⟩ := emailWorker_eq env id rs st
  obtain ⟨_, f2, f3⟩ := foldl_emailWorkerBody_effect env id rs st
  refine ⟨?_, ?_, ?_, ?_⟩
  · intro hall
    rw [countP_not_failed_of_all_succeed env rs hall] at f3
    rw [e3]
    have hsub : (rs.length - 1) * 50 ≤ 50 * rs.length := by
      have h1 : rs.length - 1 ≤ rs.length := Nat.sub_le _ _
      have h2 := Nat.mul_le_mul_right 50 h1
      rw [Nat.mul_comm rs.length 50] at h2
      exact h2
    omega
  · rw [e2, f2]
  · intro r s hf
    exact ((emailWorkerBody_effect env id s r).1 hf).2.1
  · intro r s hf
    exact ⟨((emailWorkerBody_effect env id s r).2 hf).2.1,
      ((emailWorkerBody_effect env id s r).2 hf).2.2⟩

/-- Witness for C10: three recipients that all succeed take at least 100 ms. -/
theorem emailWorker_throttle_witness :
    (0 : Nat) + (3 - 1) * 50
      ≤ (emailWorker demoEnv 1
          [⟨"Alice", "alice@x.com"⟩, ⟨"Carol", "carol@x.com"⟩, ⟨"Dan", "dan@x.com"⟩]
          ⟨0, []⟩).clock :=
  (emailWorker_throttle demoEnv 1
    [⟨"Alice", "alice@x.com"⟩, ⟨"Carol", "carol@x.com"⟩, ⟨"Dan", "dan@x.com"⟩] ⟨0, []⟩).1
    (by decide)

/-! ## Summary -/

/-- Joining a list of strings, head first. -/
theorem join_cons (a : String) (l : List String) :
    String.join (a :: l) = a ++ String.join l := by
  apply String.ext
  simp [String.data_join]

/-- The loop of `printDLQSummary` writes one block per entry, numbered from
`i + 1`. -/
theorem summaryLoop_eq_join (dlq : List FailedEmail) :
    ∀ i : Nat, summaryLoop i dlq
      = String.join ((dlq.enumFrom i).map fun p => summaryBlock (p.1 + 1) p.2) := by
  induction dlq with
  | nil => intro i; rfl
  | cons f rest ih =>
    intro i
    rw [List.enumFrom_cons, List.map_cons, join_cons, ← ih (i + 1)]
    rfl

/-- C8. On the empty list `printDLQSummary` prints exactly the success line
(preceded by an empty line). On a list of `n > 0` entries it prints
`Failed to send n email(s)`, a rule, and then exactly `n` blocks, the `i`-th
of which carries the number `i` (from 1) and the email, name, error text and
timestamp of the `i`-th entry, in the order of the list. -/
theorem printDLQSummary_text (dlq : List FailedEmail) :
    printDLQSummary [] = "\n✓ All emails sent successfully!\n"
      ∧ (dlq ≠ [] →
          printDLQSummary dlq
            = ("\n⚠ Failed to send " ++ toString dlq.length ++ " email(s):\n")
              ++ "----------------------------------------\n"
              ++ String.join (dlq.enum.map fun p => summaryBlock (p.1 + 1) p.2))
      ∧ (dlq.enum.map fun p => summaryBlock (p.1 + 1) p.2).length = dlq.length
      ∧ (∀ (i : Nat) (h : i < dlq.length),
          (dlq.enum.map fun p => summaryBlock (p.1 + 1) p.2)[i]?
            = some (toString (i + 1) ++ ". Email: " ++ (dlq.get ⟨i, h⟩).Recipient.Email
                ++ ", Name: " ++ (dlq.get ⟨i, h⟩).Recipient.Name ++ "\n"
                ++ ("   Error: " ++ (dlq.get ⟨i, h⟩).Error ++ "\n")
                ++ ("   Time: " ++ (dlq.get ⟨i, h⟩).Timestamp ++ "\n")
                ++ "\n")) := by
  refine ⟨rfl, ?_, ?_, ?_⟩
  · intro hne
    have hlen : dlq.length ≠ 0 := fun h => hne (List.length_eq_zero.mp h)
    simp only [printDLQSummary, hlen, if_false]
    rw [summaryLoop_eq_join dlq 0]
    rfl
  · simp
  · intro i h
    simp [List.enum, summaryBlock, List.getElem?_enumFrom, List.getElem?_eq_getElem h]

/-- Witness for C8: the summary of a queue with two entries. -/
theorem printDLQSummary_text_witness :
    printDLQSummary
        [⟨⟨"Bob", "bob@x.com"⟩, "SMTP error: connection refused", "2024-05-01T10:00:00Z"⟩,
         ⟨⟨"", "nobody@x.com"⟩, "Template parsing error: empty name", "2024-05-01T10:00:01Z"⟩]
      = ("\n⚠ Failed to send " ++ toString 2 ++ " email(s):\n")
          ++ "----------------------------------------\n"
          ++ String.join
            ((List.enum
                [(⟨⟨"Bob", "bob@x.com"⟩, "SMTP error: connection refused",
                    "2024-05-01T10:00:00Z"⟩ : FailedEmail),
                 ⟨⟨"", "nobody@x.com"⟩, "Template parsing error: empty name",
                    "2024-05-01T10:00:01Z"⟩]).map
              fun p => summaryBlock (p.1 + 1) p.2) :=
  (printDLQSummary_text
    [⟨⟨"Bob", "bob@x.com"⟩, "SMTP error: connection refused", "2024-05-01T10:00:00Z"⟩,
     ⟨⟨"", "nobody@x.com"⟩, "Template parsing error: empty name", "2024-05-01T10:00:01Z"⟩]).2.1
    (by simp)

/-! ## Run coordinator: the invariant -/

/-- Replacing the element at position `k` changes a count by the element
removed and the element put in. -/
theorem countP_set_add {α : Type} (p : α → Bool) (l : List α) :
    ∀ (k : Nat) (x a : α), l[k]? = some x →
      (l.set k a).countP p + (if p x then 1 else 0)
        = l.countP p + (if p a then 1 else 0) := by
  induction l with
  | nil => intro k x a h; simp at h
  | cons y rest ih =>
    intro k x a h
    cases k with
    | zero =>
      simp only [List.getElem?_cons_zero, Option.some.injEq] at h
      subst h
      simp only [List.set_cons_zero, List.countP_cons]
      omega
    | succ j =>
      simp only [List.getElem?_cons_succ] at h
      have := ih j x a h
      simp only [List.set_cons_succ, List.countP_cons]
      omega

/-- An element that satisfies `p` makes the count of `p` positive. -/
theorem countP_pos_of_getElem {α : Type} (p : α → Bool) (l : List α) :
    ∀ (k : Nat) (x : α), l[k]? = some x → p x = true → 0 < l.countP p := by
  induction l with
  | nil => intro k x h; simp at h
  | cons y rest ih =>
    intro k x h hp
    cases k with
    | zero =>
      simp only [List.getElem?_cons_zero, Option.some.injEq] at h
      subst h
      simp [List.countP_cons, hp]
    | succ j =>
      simp only [List.getElem?_cons_succ] at h
      have := ih j x h hp
      simp only [List.countP_cons]
      omega

/-- What a worker step does to the parts of the state the invariant reads. -/
theorem stepWorker_summary (env : Env) (k : Nat) (s s1 : Sys)
    (hs : stepWorker env k s = some s1) :
    ∃ x pc, s.workers[k]? = some x ∧ x.running = true
      ∧ s1.workers = s.workers.set k pc
      ∧ s1.mainPc = s.mainPc ∧ s1.dlqClosed = s.dlqClosed
      ∧ ((pc.running = true ∧ s1.wg = s.wg ∧ s1.sentOnClosed = s.sentOnClosed)
        ∨ (pc.running = false ∧ s1.wg = s.wg - 1
            ∧ (s1.sentOnClosed = s.sentOnClosed ∨ s.dlqClosed = true))) := by
  unfold stepWorker at hs
  split at hs
  · cases hs
  · cases hs
  · rename_i clock hw
    split at hs
    · cases hs
      exact ⟨_, WorkerPc.exited, hw, rfl, rfl, rfl, rfl, Or.inr ⟨rfl, rfl, Or.inl rfl⟩⟩
    · split at hs
      · cases hs
        refine ⟨_, _, hw, rfl, rfl, rfl, rfl, Or.inl ⟨?_, rfl, rfl⟩⟩
        split <;> rfl
      · cases hs
  · rename_i clock failed hw
    split at hs
    · rename_i hclosed
      cases hs
      exact ⟨_, WorkerPc.exited, hw, rfl, rfl, rfl, rfl, Or.inr ⟨rfl, rfl, Or.inr hclosed⟩⟩
    · split at hs
      · cases hs
        exact ⟨_, WorkerPc.receiving clock, hw, rfl, rfl, rfl, rfl, Or.inl ⟨rfl, rfl, rfl⟩⟩
      · cases hs

/-- The invariant holds initially. -/
theorem inv_init (feed : List ChanEvent) : Inv (Sys.init feed) := by
  refine ⟨rfl, rfl, ?_⟩
  simp [phaseOk, Sys.init, workerCount]

/-- A step of `main` keeps the invariant. -/
theorem stepMain_inv (s s1 : Sys) (hinv : Inv s) (hs : stepMain s = some s1) : Inv s1 := by
  obtain ⟨hwg, hpanic, hphase⟩ := hinv
  unfold stepMain at hs
  unfold phaseOk at hphase
  split at hs
  · rename_i i hpc
    rw [hpc] at hphase
    split at hs
    · rename_i hle
      cases hs
      refine ⟨?_, hpanic, ?_⟩
      · simp [hwg, List.countP_append, WorkerPc.running]
      · simp only [phaseOk, List.length_append, List.length_singleton]
        refine ⟨by omega, by omega, hphase.2.2⟩
    · rename_i hgt
      cases hs
      refine ⟨hwg, hpanic, ?_⟩
      simp only [phaseOk]
      exact ⟨by omega, hphase.2.2⟩
  · rename_i hpc
    rw [hpc] at hphase
    split at hs
    · rename_i hzero
      cases hs
      exact ⟨hwg, hpanic, by simp only [phaseOk]; exact ⟨hphase.1, hzero, hphase.2⟩⟩
    · cases hs
  · rename_i hpc
    rw [hpc] at hphase
    cases hs
    exact ⟨hwg, hpanic, by simp [phaseOk, hphase.1, hphase.2.1]⟩
  · rename_i hpc
    rw [hpc] at hphase
    cases hs
    exact ⟨hwg, hpanic, by simp only [phaseOk]; exact hphase⟩
  · rename_i hpc
    rw [hpc] at hphase
    cases hs
    exact ⟨hwg, hpanic, by simp only [phaseOk]; exact hphase⟩
  · cases hs

/-- A step of a worker keeps the invariant: the count of running workers
moves with the wait group counter, and a worker that can move shows that the
DLQ channel is still open. -/
theorem stepWorker_inv (env : Env) (k : Nat) (s s1 : Sys) (hinv : Inv s)
    (hs : stepWorker env k s = some s1) : Inv s1 := by
  obtain ⟨hwg, hpanic, hphase⟩ := hinv
  obtain ⟨x, pc, hx, hrun, hworkers, hmain, hclosed, hcase⟩ := stepWorker_summary env k s s1 hs
  have hcount := countP_set_add (fun w => w.running) s.workers k x pc hx
  simp only [hrun, if_true] at hcount
  have hlen : s1.workers.length = s.workers.length := by rw [hworkers, List.length_set]
  have hpos : 0 < s.wg := by
    rw [hwg]; exact countP_pos_of_getElem (fun w => w.running) s.workers k x hx hrun
  have hopen : s.dlqClosed = false := by
    unfold phaseOk at hphase
    split at hphase
    · exact hphase.2.2
    · exact hphase.2
    · exact hphase.2.2
    · omega
    · omega
    · omega
  have hphase1 : phaseOk s1 := by
    unfold phaseOk at hphase ⊢
    rw [hmain, hlen, hclosed]
    split at hphase
    · exact hphase
    · exact hphase
    · omega
    · omega
    · omega
    · omega
  rcases hcase with ⟨hpc, hwg1, hp1⟩ | ⟨hpc, hwg1, hp1⟩
  · simp only [hpc, if_true] at hcount
    refine ⟨?_, ?_, hphase1⟩
    · rw [hwg1, hworkers, hwg]; omega
    · rw [hp1]; exact hpanic
  · simp only [hpc, Bool.false_eq_true, if_false] at hcount
    refine ⟨?_, ?_, hphase1⟩
    · rw [hwg1, hworkers, hwg]; omega
    · rcases hp1 with hp1 | hp1
      · rw [hp1]; exact hpanic
      · rw [hopen] at hp1; cases hp1

/-- A step of the feed keeps the invariant. -/
theorem stepFeed_inv (s s1 : Sys) (hinv : Inv s) (hs : stepFeed s = some s1) : Inv s1 := by
  unfold stepFeed at hs
  split at hs
  · split at hs
    · cases hs
    · cases hs
      exact hinv
  · cases hs

/-- A step of the collector keeps the invariant. -/
theorem stepCollector_inv (s s1 : Sys) (hinv : Inv s) (hs : stepCollector s = some s1) :
    Inv s1 := by
  unfold stepCollector at hs
  split at hs
  · split at hs
    · cases hs
      exact hinv
    · split at hs
      · cases hs
        exact hinv
      · cases hs
  · cases hs
    exact hinv
  · cases hs

/-- Every step keeps the invariant. -/
theorem step_inv (env : Env) (a : Action) (s s1 : Sys) (hinv : Inv s)
    (hs : step env a s = some s1) : Inv s1 := by
  unfold step at hs
  split at hs
  · cases hs
  · cases a with
    | main => exact stepMain_inv s s1 hinv hs
    | feed => exact stepFeed_inv s s1 hinv hs
    | worker k => exact stepWorker_inv env k s s1 hinv hs
    | collector => exact stepCollector_inv s s1 hinv hs

/-- Every schedule keeps the invariant. -/
theorem run_inv (env : Env) (sched : List Action) :
    ∀ s s1 : Sys, Inv s → run env sched s = some s1 → Inv s1 := by
  induction sched with
  | nil =>
    intro s s1 hinv hs
    simp only [run, Option.some.injEq] at hs
    rw [← hs]; exact hinv
  | cons a rest ih =>
    intro s s1 hinv hs
    unfold run at hs
    split at hs
    · cases hs
    · rename_i s2 hstep
      exact ih s2 s1 (step_inv env a s s2 hinv hstep) hs

/-- Under the invariant, a closed DLQ channel means that all `workerCount`
workers were spawned and have exited. -/
theorem inv_closed (s : Sys) (hinv : Inv s) (hclosed : s.dlqClosed = true) :
    s.workers.length = workerCount ∧ s.wg = 0 ∧ unfinished s = 0 := by
  obtain ⟨hwg, _, hphase⟩ := hinv
  have hfacts : s.workers.length = workerCount ∧ s.wg = 0 := by
    unfold phaseOk at hphase
    split at hphase
    · rw [hphase.2.2] at hclosed; cases hclosed
    · rw [hphase.2] at hclosed; cases hclosed
    · rw [hphase.2.2] at hclosed; cases hclosed
    · exact ⟨hphase.1, hphase.2.1⟩
    · exact ⟨hphase.1, hphase.2.1⟩
    · exact ⟨hphase.1, hphase.2.1⟩
  refine ⟨hfacts.1, hfacts.2, ?_⟩
  have hsplit := List.length_eq_countP_add_countP (fun w : WorkerPc => w.running) s.workers
  have hneg : List.countP (fun w : WorkerPc => !w.running) s.workers
      = List.countP (fun a : WorkerPc => decide ¬a.running = true) s.workers := by
    congr 1
    funext a
    cases a <;> rfl
  unfold unfinished
  rw [hneg]
  omega

/-- A worker that can move is running, so the count of running workers is
positive. -/
theorem stepWorker_needs_running (env : Env) (k : Nat) (s s1 : Sys)
    (hs : stepWorker env k s = some s1) :
    0 < s.workers.countP (fun w => w.running) := by
  obtain ⟨x, pc, hx, hrun, _⟩ := stepWorker_summary env k s s1 hs
  exact countP_pos_of_getElem (fun w => w.running) s.workers k x hx hrun

/-! ## Run coordinator: claims -/

/-- C3. In every state the program reaches, no worker has sent on a closed DLQ
channel; and whenever the DLQ channel is closed, all `workerCount = 5` workers
were spawned, the number of workers that have not exited their loop is 0, the
wait group counter is 0, and no worker step is enabled. -/
theorem close_only_after_all_workers_done (env : Env) (feed : List ChanEvent)
    (sched : List Action) (s : Sys) (hrun : run env sched (Sys.init feed) = some s) :
    s.sentOnClosed = false
      ∧ (s.dlqClosed = true →
          unfinished s = 0 ∧ s.workers.length = 5 ∧ s.wg = 0
            ∧ ∀ k, stepWorker env k s = none) := by
  have hinv := run_inv env sched (Sys.init feed) s (inv_init feed) hrun
  refine ⟨hinv.2.1, ?_⟩
  intro hclosed
  obtain ⟨hlen, hwg, hunf⟩ := inv_closed s hinv hclosed
  refine ⟨hunf, hlen, hwg, ?_⟩
  intro k
  cases hstep : stepWorker env k s with
  | none => rfl
  | some s1 =>
    have hpos := stepWorker_needs_running env k s s1 hstep
    rw [← hinv.1] at hpos
    omega

/-- Witness for C3: a run that reaches a state with the DLQ channel closed. -/
theorem close_only_after_all_workers_done_witness :
    racyFinal.dlqClosed = true ∧ unfinished racyFinal = 0 :=
  ⟨rfl, ((close_only_after_all_workers_done demoEnv bobFeed racySchedule racyFinal rfl).2 rfl).1⟩

/-- C2. The claim that the summary reads a complete `dlq` fails on the code:
`main` does not wait for the collector. After `racySchedule` the summary has
read the empty `dlq`, so it prints the success line, while the failure a
worker sent is still in the DLQ channel; the collector can append it only
after the read. -/
theorem summary_read_before_collector_drains :
    run demoEnv racySchedule (Sys.init bobFeed) = some racyFinal
      ∧ racyFinal.reported = some []
      ∧ racyFinal.sent = [bobFailure]
      ∧ racyFinal.dlqChannel = [bobFailure]
      ∧ dlqSent (emailWorker demoEnv 1 [⟨"Bob", "bob@x.com"⟩] ⟨0, []⟩).trace = [bobFailure]
      ∧ printDLQSummary [] = "\n✓ All emails sent successfully!\n"
      ∧ (run demoEnv (racySchedule ++ [Action.collector, Action.collector])
            (Sys.init bobFeed)).map (fun s => (s.reported, s.dlq))
          = some (some [], [bobFailure]) :=
  ⟨rfl, rfl, rfl, rfl, rfl, rfl, rfl⟩

end Mailer
